import Mathlib

/-!
Verification of the kinda-object-db layer (src/notes.js): a polymorphic-object
layer over an external ordered table store.  All items live in one shared table
named TABLE_NAME; each item carries a reserved attribute holding the list of
classes it belongs to.  The external collaborator (kinda-db) is modelled from
its interface description; the code of src/notes.js itself is translated
definition by definition.
-/

namespace KindaObjectDB

/-- Errors surfaced by the layer, classifying the errors thrown by the source
(invalid arguments, class mismatch on a tagged item, missing key, existing key,
version downgrade, lifecycle misuse inside a transaction) plus the JavaScript
type error raised when a method is called on an undefined attribute. -/
inductive Err
  | invalidArgument (msg : String)
  | classMismatch
  | notFound
  | alreadyExists
  | versionDowngrade
  | transactionMisuse
  | typeError
deriving Repr, DecidableEq

/-- Attribute values stored inside an item: strings, numbers, booleans, or a
list of strings (the shape of the reserved class-list attribute). -/
inductive Value
  | str (s : String)
  | num (n : Int)
  | bool (b : Bool)
  | strList (l : List String)
deriving Repr, DecidableEq

/-- An item (a JavaScript plain object) as an association list from attribute
names to values. -/
def Item : Type := List (String × Value)

instance : DecidableEq Item := by unfold Item; infer_instance
instance : Repr Item := by unfold Item; infer_instance

/-- First value bound to a key in an association list (JavaScript property
read; `none` models `undefined`). -/
def lookupAssoc {β : Type} (k : String) : List (String × β) → Option β
  | [] => none
  | p :: t => if p.1 = k then some p.2 else lookupAssoc k t

/-- JavaScript property assignment `o[k] = v`: replace the value bound to an
existing key in place, otherwise append the new binding. -/
def setAssoc {β : Type} (k : String) (v : β) (l : List (String × β)) :
    List (String × β) :=
  if (lookupAssoc k l).isSome then
    l.map (fun p => if p.1 = k then (k, v) else p)
  else l ++ [(k, v)]

/-- Removal of every binding of a key (`_.omit(o, k)` and key deletion). -/
def eraseAssoc {β : Type} (k : String) (l : List (String × β)) :
    List (String × β) :=
  l.filter (fun p => p.1 ≠ k)

theorem lookupAssoc_map_set {β : Type} (k : String) (v : β) (l : List (String × β)) :
    lookupAssoc k (l.map (fun p => if p.1 = k then (k, v) else p)) =
      (lookupAssoc k l).map (fun _ => v) := by
  induction l with
  | nil => rfl
  | cons p t ih =>
    by_cases h : p.1 = k <;> simp [lookupAssoc, h, ih]

theorem lookupAssoc_append_self {β : Type} (k : String) (v : β)
    (l : List (String × β)) (h : lookupAssoc k l = none) :
    lookupAssoc k (l ++ [(k, v)]) = some v := by
  induction l with
  | nil => simp [lookupAssoc]
  | cons p t ih =>
    by_cases hp : p.1 = k
    · simp [lookupAssoc, hp] at h
    · simp [lookupAssoc, hp] at h ⊢
      exact ih h

theorem lookupAssoc_setAssoc_self {β : Type} (k : String) (v : β)
    (l : List (String × β)) : lookupAssoc k (setAssoc k v l) = some v := by
  unfold setAssoc
  by_cases h : (lookupAssoc k l).isSome
  · simp only [h, if_true, lookupAssoc_map_set]
    match hl : lookupAssoc k l with
    | some w => rfl
    | none => rw [hl] at h; simp at h
  · simp only [h, if_false]
    apply lookupAssoc_append_self
    match hl : lookupAssoc k l with
    | some w => rw [hl] at h; simp at h
    | none => rfl

theorem lookupAssoc_map_set_ne {β : Type} (k k2 : String) (v : β)
    (l : List (String × β)) (h : k2 ≠ k) :
    lookupAssoc k2 (l.map (fun p => if p.1 = k then (k, v) else p)) =
      lookupAssoc k2 l := by
  induction l with
  | nil => rfl
  | cons p t ih =>
    by_cases hp : p.1 = k
    · have hne : ¬ (k = k2) := fun hh => h hh.symm
      have hp2 : ¬ (p.1 = k2) := by rw [hp]; exact hne
      simp [lookupAssoc, hp, hne, hp2, ih]
    · by_cases hp2 : p.1 = k2 <;> simp [lookupAssoc, hp, hp2, h, ih]

theorem lookupAssoc_append_ne {β : Type} (k k2 : String) (v : β)
    (l : List (String × β)) (h : k2 ≠ k) :
    lookupAssoc k2 (l ++ [(k, v)]) = lookupAssoc k2 l := by
  induction l with
  | nil =>
    simp [lookupAssoc]
    exact fun hh => h hh.symm
  | cons p t ih =>
    by_cases hp2 : p.1 = k2 <;> simp [lookupAssoc, hp2, ih]

theorem lookupAssoc_setAssoc_ne {β : Type} (k k2 : String) (v : β)
    (l : List (String × β)) (h : k2 ≠ k) :
    lookupAssoc k2 (setAssoc k v l) = lookupAssoc k2 l := by
  unfold setAssoc
  by_cases hs : (lookupAssoc k l).isSome
  · rw [if_pos hs]
    exact lookupAssoc_map_set_ne k k2 v l h
  · rw [if_neg hs]
    exact lookupAssoc_append_ne k k2 v l h

theorem eraseAssoc_map_set {β : Type} (k : String) (v : β)
    (l : List (String × β)) :
    eraseAssoc k (l.map (fun p => if p.1 = k then (k, v) else p)) =
      eraseAssoc k l := by
  induction l with
  | nil => rfl
  | cons p t ih =>
    by_cases hp : p.1 = k <;>
      simp [eraseAssoc, List.filter_cons, hp] at ih ⊢ <;>
      simpa [eraseAssoc] using ih

theorem eraseAssoc_setAssoc {β : Type} (k : String) (v : β)
    (l : List (String × β)) :
    eraseAssoc k (setAssoc k v l) = eraseAssoc k l := by
  unfold setAssoc
  by_cases hs : (lookupAssoc k l).isSome
  · simp only [hs, if_true, eraseAssoc_map_set]
  · simp only [hs, if_false]
    simp [eraseAssoc, List.filter_append, List.filter_cons]

theorem lookupAssoc_eraseAssoc_self {β : Type} (k : String)
    (l : List (String × β)) : lookupAssoc k (eraseAssoc k l) = none := by
  induction l with
  | nil => rfl
  | cons p t ih =>
    by_cases hp : p.1 = k <;>
      simp [eraseAssoc, List.filter_cons, hp, lookupAssoc] at ih ⊢ <;>
      simpa [eraseAssoc, lookupAssoc, hp] using ih

theorem eraseAssoc_of_lookup_none {β : Type} (k : String)
    (l : List (String × β)) (h : lookupAssoc k l = none) :
    eraseAssoc k l = l := by
  induction l with
  | nil => rfl
  | cons p t ih =>
    by_cases hp : p.1 = k
    · simp [lookupAssoc, hp] at h
    · simp [lookupAssoc, hp] at h
      simp [eraseAssoc, List.filter_cons, hp] at ih ⊢
      simpa [eraseAssoc] using ih h

/-- VERSION constant (src/notes.js line 25). -/
def VERSION : Int := 1

/-- Persisted lifecycle record: `{name, version}` (src/notes.js lines 133-136). -/
structure LifecycleRecord where
  name    : String
  version : Int
deriving Repr, DecidableEq

/-- Modelled machine state: the single shared Objects table, the persisted
lifecycle record slot (the store key formed from the database name), the
process flags of the lifecycle manager, a count of physical store transactions
opened, and the trace of emitted notifications. -/
structure State where
  objects : List (String × Item)
  lifecycle : Option LifecycleRecord
  hasBeenInitialized : Bool
  isInitializing : Bool
  txLog : Nat
  events : List String
deriving Repr, DecidableEq

/-- A stateful operation: the async functions of the source become explicit
state passing; a thrown error is the `Except.error` case, and the state at the
moment of the throw is carried alongside (side effects before a throw persist). -/
def M (α : Type) : Type := State → Except Err α × State

/-- Append an emitted notification to the trace (KindaEventManager emit). -/
def emitEvent (e : String) (st : State) : State :=
  { st with events := st.events ++ [e] }

/-- Transaction scope.  The source detects a transaction-bound view by object
identity (src/notes.js lines 179-183: a view created by Object.create differs
from the stored objectDatabase reference); the two possibilities are the root
instance and a transaction-bound view. -/
inductive Scope
  | root
  | nested
deriving Repr, DecidableEq

/-- `isInsideTransaction` (src/notes.js lines 179-183). -/
def isInsideTransaction : Scope → Bool
  | .root => false
  | .nested => true

/-- Modelled from the spec: single-key get of the external table store with
the errorIfMissing option. -/
def dbGetItem (key : String) (errorIfMissing : Bool) : M (Option Item) :=
  fun st =>
    match lookupAssoc key st.objects with
    | some item => (.ok (some item), st)
    | none => if errorIfMissing then (.error .notFound, st) else (.ok none, st)

/-- Modelled from the spec: single-key put of the external table store with
the createIfMissing and errorIfExists options. -/
def dbPutItem (key : String) (item : Item)
    (createIfMissing errorIfExists : Bool) : M Unit :=
  fun st =>
    match lookupAssoc key st.objects with
    | some _ =>
      if errorIfExists then (.error .alreadyExists, st)
      else (.ok (), { st with objects := setAssoc key item st.objects })
    | none =>
      if createIfMissing then
        (.ok (), { st with objects := setAssoc key item st.objects })
      else (.error .notFound, st)

/-- Modelled from the spec: single-key delete of the external table store,
returning whether a deletion occurred (missing key is an error when no
options are given, as in the deleteItem call of src/notes.js line 239). -/
def dbDeleteItem (key : String) : M Bool :=
  fun st =>
    match lookupAssoc key st.objects with
    | some _ => (.ok true, { st with objects := eraseAssoc key st.objects })
    | none => (.error .notFound, st)

/-- Modelled from the spec: a physical store transaction.  Run the body; on
normal return commit its writes, on an error roll the stored data back and
re-raise the error.  The transaction count records that a physical transaction
was opened; notifications already emitted are not undone by a rollback. -/
def dbTransaction {α : Type} (body : M α) : M α :=
  fun st =>
    match body { st with txLog := st.txLog + 1 } with
    | (.ok a, st2) => (.ok a, st2)
    | (.error e, st2) =>
      (.error e, { st2 with objects := st.objects, lifecycle := st.lifecycle })

/-- `loadObjectDatabaseRecord` (src/notes.js lines 117-119): read the
lifecycle record from the store, honouring errorIfMissing. -/
def loadObjectDatabaseRecord (errorIfMissing : Bool) :
    M (Option LifecycleRecord) :=
  fun st =>
    match st.lifecycle with
    | some r => (.ok (some r), st)
    | none => if errorIfMissing then (.error .notFound, st) else (.ok none, st)

/-- `saveObjectDatabaseRecord` (src/notes.js lines 121-126): store put with
errorIfExists and createIfMissing set to its negation (pure create or upsert). -/
def saveObjectDatabaseRecord (record : LifecycleRecord)
    (errorIfExists : Bool) : M Unit :=
  fun st =>
    if errorIfExists && st.lifecycle.isSome then (.error .alreadyExists, st)
    else (.ok (), { st with lifecycle := some record })

/-- Construction-time configuration: the database name and the names of the
declared classes (the table schema handed to the store at creation). -/
structure DBConfig where
  name : String
  declaredClasses : List String
deriving Repr, DecidableEq

/-- `createObjectDatabaseIfDoesNotExist` (src/notes.js lines 128-144): inside
a store transaction, create the lifecycle record if absent, reporting whether
it was created; creation emits the didCreate notification. -/
def createObjectDatabaseIfDoesNotExist (cfg : DBConfig) : M Bool :=
  dbTransaction (fun st =>
    match loadObjectDatabaseRecord false st with
    | (.error e, st1) => (.error e, st1)
    | (.ok (some _), st1) => (.ok false, st1)
    | (.ok none, st1) =>
      match saveObjectDatabaseRecord ⟨cfg.name, VERSION⟩ true st1 with
      | (.error e, st2) => (.error e, st2)
      | (.ok _, st2) => (.ok true, emitEvent "didCreate" st2))

/-- `upgradeObjectDatabase` (src/notes.js lines 146-167): load the lifecycle
record; equal version is a no-op, a newer stored version refuses with a
downgrade error, an older one emits upgradeDidStart, runs the (empty at
VERSION 1) version-specific steps, persists the bumped version and emits
upgradeDidStop. -/
def upgradeObjectDatabase : M Unit :=
  fun st =>
    match loadObjectDatabaseRecord true st with
    | (.error e, st0) => (.error e, st0)
    | (.ok none, st0) => (.error .notFound, st0)
    | (.ok (some record), st0) =>
      if record.version = VERSION then (.ok (), st0)
      else if record.version > VERSION then (.error .versionDowngrade, st0)
      else
        let st1 := emitEvent "upgradeDidStart" st0
        match saveObjectDatabaseRecord { record with version := VERSION } false st1 with
        | (.error e, st2) => (.error e, st2)
        | (.ok _, st2) => (.ok (), emitEvent "upgradeDidStop" st2)

/-- Body of `initializeObjectDatabase` after the guards (src/notes.js lines
96-111): set up the store, create the lifecycle record if needed; a created
database skips the upgrade path, an existing one upgrades under the database
lock; finally mark initialized and emit didInitialize.  The external
initializeDatabase, removeTablesMarkedAsRemoved and lock calls touch no
modelled state. -/
def initializeCore (cfg : DBConfig) : M Unit :=
  fun st =>
    match createObjectDatabaseIfDoesNotExist cfg st with
    | (.error e, st1) => (.error e, st1)
    | (.ok hasBeenCreated, st1) =>
      if hasBeenCreated then
        (.ok (), emitEvent "didInitialize" { st1 with hasBeenInitialized := true })
      else
        match upgradeObjectDatabase st1 with
        | (.error e, st2) => (.error e, st2)
        | (.ok _, st2) =>
          (.ok (), emitEvent "didInitialize" { st2 with hasBeenInitialized := true })

/-- `initializeObjectDatabase` (src/notes.js lines 89-115): no-op when already
initialized or while initializing, an error inside a transaction scope;
otherwise run the body with the isInitializing flag held, clearing it even on
an error. -/
def initializeObjectDatabase (cfg : DBConfig) (scope : Scope) : M Unit :=
  fun st =>
    if st.hasBeenInitialized then (.ok (), st)
    else if st.isInitializing then (.ok (), st)
    else if isInsideTransaction scope then (.error .transactionMisuse, st)
    else
      match initializeCore cfg { st with isInitializing := true } with
      | (r, st1) => (r, { st1 with isInitializing := false })

/-- `transaction` (src/notes.js lines 169-177): a scope already inside a
transaction runs the function on itself; the root scope initializes lazily,
opens one physical store transaction and runs the function on a view bound to
it. -/
def transaction {α : Type} (cfg : DBConfig) (fn : Scope → M α)
    (scope : Scope) : M α :=
  fun st =>
    if isInsideTransaction scope then fn scope st
    else
      match initializeObjectDatabase cfg scope st with
      | (.error e, st1) => (.error e, st1)
      | (.ok _, st1) => dbTransaction (fn Scope.nested) st1

/-- `checkClass` (src/notes.js lines 318-321); the isString test is enforced
by the type of the argument. -/
def checkClass (klass : String) : Except Err Unit :=
  if klass = "" then .error (.invalidArgument "class parameter is missing or empty")
  else .ok ()

/-- `makeIndexName` (src/notes.js lines 330-332). -/
def makeIndexName (klass : String) : String := klass ++ "?"

/-- Prefix test on character lists (support for the substring search that
JavaScript indexOf performs on strings). -/
def charsStartWith : List Char → List Char → Bool
  | [], _ => true
  | _ :: _, [] => false
  | a :: as, b :: bs => a = b && charsStartWith as bs

/-- Substring test on character lists. -/
def charsContain (pat : List Char) : List Char → Bool
  | [] => charsStartWith pat []
  | c :: rest => charsStartWith pat (c :: rest) || charsContain pat rest

/-- Evaluation of the source test `classes.indexOf(klass) === -1` on the raw
reserved attribute: membership on an array, substring search on a string, and
a TypeError on values that have no indexOf method. -/
def classesNotContain (v : Value) (klass : String) : Except Err Bool :=
  match v with
  | .strList l => .ok (! l.contains klass)
  | .str s => .ok (! charsContain klass.data s.data)
  | .num _ => .error .typeError
  | .bool _ => .error .typeError

/-- Result of `getItem`: the raw reserved attribute as classes, every other
attribute as value. -/
structure StoredItem where
  classes : Value
  value : Item
deriving Repr, DecidableEq

/-- `getItem` (src/notes.js lines 201-212). -/
def getItem (cfg : DBConfig) (scope : Scope) (klass key : String)
    (errorIfMissing : Bool) : M (Option StoredItem) :=
  fun st =>
    match checkClass klass with
    | .error e => (.error e, st)
    | .ok _ =>
      match initializeObjectDatabase cfg scope st with
      | (.error e, st1) => (.error e, st1)
      | (.ok _, st1) =>
        match dbGetItem key errorIfMissing st1 with
        | (.error e, st2) => (.error e, st2)
        | (.ok none, st2) => (.ok none, st2)
        | (.ok (some item), st2) =>
          match lookupAssoc "_classes" item with
          | none => (.error .typeError, st2)
          | some classes =>
            match classesNotContain classes klass with
            | .error e => (.error e, st2)
            | .ok true => (.error .classMismatch, st2)
            | .ok false =>
              (.ok (some ⟨classes, eraseAssoc "_classes" item⟩), st2)

/-- `putItem` (src/notes.js lines 219-226): validate the class list, clone the
item and assign the reserved attribute, then write through the store; the
isArray test on the class list is enforced by its type. -/
def putItem (cfg : DBConfig) (scope : Scope) (classes : List String)
    (key : String) (item : Item) (createIfMissing errorIfExists : Bool) :
    M Unit :=
  fun st =>
    if classes.isEmpty then
      (.error (.invalidArgument "classes parameter is empty"), st)
    else
      let item2 := setAssoc "_classes" (.strList classes) item
      match initializeObjectDatabase cfg scope st with
      | (.error e, st1) => (.error e, st1)
      | (.ok _, st1) => dbPutItem key item2 createIfMissing errorIfExists st1

/-- Transaction body of `deleteItem` (src/notes.js lines 233-240): re-read the
record through the transaction handle, return with the flag still false when
missing, verify class membership, then delete. -/
def deleteItemBody (klass key : String) (errorIfMissing : Bool) : M Bool :=
  fun st =>
    match dbGetItem key errorIfMissing st with
    | (.error e, st1) => (.error e, st1)
    | (.ok none, st1) => (.ok false, st1)
    | (.ok (some item), st1) =>
      match lookupAssoc "_classes" item with
      | none => (.error .typeError, st1)
      | some classes =>
        match classesNotContain classes klass with
        | .error e => (.error e, st1)
        | .ok true => (.error .classMismatch, st1)
        | .ok false => dbDeleteItem key st1

/-- `deleteItem` (src/notes.js lines 230-242): check the class, run the body
inside an implicit transaction, and return whether a deletion occurred. -/
def deleteItem (cfg : DBConfig) (scope : Scope) (klass key : String)
    (errorIfMissing : Bool) : M Bool :=
  fun st =>
    match checkClass klass with
    | .error e => (.error e, st)
    | .ok _ =>
      transaction cfg (fun _tr => deleteItemBody klass key errorIfMissing) scope st

/-- A declared index key component: a property name or a derived-value
function (identified here by a tag). -/
inductive PropSpec
  | attr (name : String)
  | derived (tag : String)
deriving Repr, DecidableEq

/-- Declared index properties: a bare single property or an array of
properties (the source wraps a non-array into a one-element array). -/
inductive RawProps
  | one (p : PropSpec)
  | many (ps : List PropSpec)
deriving Repr, DecidableEq

/-- A declared index: a bare properties value, or a plain object carrying
properties and an optional projection. -/
inductive RawIndex
  | bare (ps : RawProps)
  | plain (ps : RawProps) (projection : Option (List String))
deriving Repr, DecidableEq

/-- A class declaration: name plus declared indexes. -/
structure ClassDecl where
  name : String
  indexes : List RawIndex
deriving Repr, DecidableEq

/-- A class entry of the construction options: a bare name or a full
declaration. -/
inductive ClassInput
  | nameOnly (name : String)
  | full (c : ClassDecl)
deriving Repr, DecidableEq

/-- Normalization of a class entry (src/notes.js line 47): a bare string
becomes a declaration with no indexes. -/
def normalizeClassInput : ClassInput → ClassDecl
  | .nameOnly n => ⟨n, []⟩
  | .full c => c

/-- A key component of a built index: the synthesized membership predicate of
a class (whose display name is makeIndexName of the class) or a declared
property. -/
inductive KeyComp
  | membership (className : String)
  | declared (p : PropSpec)
deriving Repr, DecidableEq

/-- An index of the single shared table. -/
structure BuiltIndex where
  properties : List KeyComp
  projection : Option (List String)
deriving Repr, DecidableEq

def RawProps.toList : RawProps → List PropSpec
  | .one p => [p]
  | .many ps => ps

/-- Per-index step of the schema builder (src/notes.js lines 55-63): wrap a
bare index into a plain object, wrap a non-array properties value into an
array, prepend the membership predicate, and append the reserved attribute to
a present projection. -/
def buildIndex (className : String) : RawIndex → BuiltIndex
  | .bare ps =>
    { properties := .membership className :: ps.toList.map .declared
      projection := none }
  | .plain ps proj =>
    { properties := .membership className :: ps.toList.map .declared
      projection := proj.map (fun pr => pr ++ ["_classes"]) }

/-- Indexes contributed by one class (src/notes.js lines 46-63): the empty
index unshifted as a trick to index the class itself, then every declared
index in order. -/
def buildClassIndexes (c : ClassDecl) : List BuiltIndex :=
  (RawIndex.bare (.many []) :: c.indexes).map (buildIndex c.name)

/-- The index list of the single shared table: the forEach over classes
pushing each built index into the table (src/notes.js lines 41-64). -/
def buildTableIndexes (classes : List ClassInput) : List BuiltIndex :=
  classes.foldl (fun acc ci => acc ++ buildClassIndexes (normalizeClassInput ci)) []

/-- The synthesized membership predicate of a class evaluated on a raw item
(src/notes.js lines 49-51): true when the reserved attribute is present and
contains the class name, undefined otherwise.  A reserved attribute on which
indexOf cannot run is treated as not matching. -/
def classPredicateEval (item : Item) (className : String) : Option Value :=
  match lookupAssoc "_classes" item with
  | none => none
  | some v =>
    match classesNotContain v className with
    | .ok false => some (.bool true)
    | _ => none

/-- Modelled from the spec: how the external store matches one query entry.
The key is resolved against the synthesized index key components: the display
name of a declared class's membership predicate evaluates that predicate, any
other key is a plain attribute comparison. -/
def evalQueryEntry (declaredClasses : List String) (item : Item)
    (k : String) (v : Value) : Bool :=
  match declaredClasses.find? (fun c => makeIndexName c = k) with
  | some c => classPredicateEval item c = some v
  | none => lookupAssoc k item = some v

/-- Modelled from the spec: an item matches a query when every entry is
satisfied. -/
def dbMatches (declaredClasses : List String) (item : Item)
    (query : List (String × Value)) : Bool :=
  query.all (fun kv => evalQueryEntry declaredClasses item kv.1 kv.2)

/-- Recognized option fields of the range and query operations. -/
structure FindOptions where
  query : Option (List (String × Value))
  order : Option (List String)
  limit : Option Nat
  reverse : Option Bool
  batchSize : Option Nat
  properties : Option (List String)
deriving Repr, DecidableEq

/-- `injectClassInQueryOption` (src/notes.js lines 323-328): check the class,
create the query object when absent, and assign true under the membership
index name; the source returns the same mutated options object. -/
def injectClassInQueryOption (klass : String) (options : FindOptions) :
    Except Err FindOptions :=
  match checkClass klass with
  | .error e => .error e
  | .ok _ =>
    let q := options.query.getD []
    .ok { options with
            query := some (setAssoc (makeIndexName klass) (.bool true) q) }

/-- Modelled from the spec: the matching entries of the table in scan order. -/
def dbFindItemsRaw (declaredClasses : List String)
    (query : List (String × Value)) (st : State) : List (String × Item) :=
  st.objects.filter (fun kv => dbMatches declaredClasses kv.2 query)

/-- Modelled from the spec: the find operation of the external store. -/
def dbFindItems (declaredClasses : List String) (options : FindOptions) :
    M (List (String × Item)) :=
  fun st => (.ok (dbFindItemsRaw declaredClasses (options.query.getD []) st), st)

/-- Modelled from the spec: the count operation of the external store. -/
def dbCountItems (declaredClasses : List String) (options : FindOptions) :
    M Nat :=
  fun st =>
    (.ok (dbFindItemsRaw declaredClasses (options.query.getD []) st).length, st)

/-- Modelled from the spec: the find-and-delete operation of the external
store, removing every matching item and returning the deleted count. -/
def dbFindAndDeleteItems (declaredClasses : List String)
    (options : FindOptions) : M Nat :=
  fun st =>
    let q := options.query.getD []
    (.ok (dbFindItemsRaw declaredClasses q st).length,
     { st with objects :=
         st.objects.filter (fun kv => ! dbMatches declaredClasses kv.2 q) })

/-- Decoded result of the range operations: the raw reserved attribute
(possibly absent), the key, and the remaining attributes. -/
structure FoundItem where
  classes : Option Value
  key : String
  value : Item
deriving Repr, DecidableEq

/-- Decoding applied to each found entry (src/notes.js lines 278-283). -/
def decodeFound (kv : String × Item) : FoundItem :=
  ⟨lookupAssoc "_classes" kv.2, kv.1, eraseAssoc "_classes" kv.2⟩

/-- `findItems` after the options rewrite (src/notes.js lines 276-284). -/
def findItemsWithOptions (cfg : DBConfig) (scope : Scope)
    (options : FindOptions) : M (List FoundItem) :=
  fun st =>
    match initializeObjectDatabase cfg scope st with
    | (.error e, st1) => (.error e, st1)
    | (.ok _, st1) =>
      match dbFindItems cfg.declaredClasses options st1 with
      | (.error e, st2) => (.error e, st2)
      | (.ok items, st2) => (.ok (items.map decodeFound), st2)

/-- `findItems` (src/notes.js lines 274-285). -/
def findItems (cfg : DBConfig) (scope : Scope) (klass : String)
    (options : FindOptions) : M (List FoundItem) :=
  fun st =>
    match injectClassInQueryOption klass options with
    | .error e => (.error e, st)
    | .ok options2 => findItemsWithOptions cfg scope options2 st

/-- `countItems` after the options rewrite (src/notes.js lines 290-291). -/
def countItemsWithOptions (cfg : DBConfig) (scope : Scope)
    (options : FindOptions) : M Nat :=
  fun st =>
    match initializeObjectDatabase cfg scope st with
    | (.error e, st1) => (.error e, st1)
    | (.ok _, st1) => dbCountItems cfg.declaredClasses options st1

/-- `countItems` (src/notes.js lines 288-292). -/
def countItems (cfg : DBConfig) (scope : Scope) (klass : String)
    (options : FindOptions) : M Nat :=
  fun st =>
    match injectClassInQueryOption klass options with
    | .error e => (.error e, st)
    | .ok options2 => countItemsWithOptions cfg scope options2 st

/-- Sequential visit of the found entries, stopping at the first visitor
error (src/notes.js lines 302-306). -/
def visitItems (visit : FoundItem → M Unit) :
    List (String × Item) → M Unit
  | [] => fun st => (.ok (), st)
  | kv :: rest => fun st =>
    match visit (decodeFound kv) st with
    | (.error e, st1) => (.error e, st1)
    | (.ok _, st1) => visitItems visit rest st1

/-- `forEachItems` after the options rewrite (src/notes.js lines 301-307). -/
def forEachItemsWithOptions (cfg : DBConfig) (scope : Scope)
    (options : FindOptions) (visit : FoundItem → M Unit) : M Unit :=
  fun st =>
    match initializeObjectDatabase cfg scope st with
    | (.error e, st1) => (.error e, st1)
    | (.ok _, st1) =>
      visitItems visit (dbFindItemsRaw cfg.declaredClasses (options.query.getD []) st1) st1

/-- `forEachItems` (src/notes.js lines 299-307). -/
def forEachItems (cfg : DBConfig) (scope : Scope) (klass : String)
    (options : FindOptions) (visit : FoundItem → M Unit) : M Unit :=
  fun st =>
    match injectClassInQueryOption klass options with
    | .error e => (.error e, st)
    | .ok options2 => forEachItemsWithOptions cfg scope options2 visit st

/-- `findAndDeleteItems` after the options rewrite (src/notes.js lines
312-313). -/
def findAndDeleteItemsWithOptions (cfg : DBConfig) (scope : Scope)
    (options : FindOptions) : M Nat :=
  fun st =>
    match initializeObjectDatabase cfg scope st with
    | (.error e, st1) => (.error e, st1)
    | (.ok _, st1) => dbFindAndDeleteItems cfg.declaredClasses options st1

/-- `findAndDeleteItems` (src/notes.js lines 310-314): inject the class into
the query, then delegate to the store operation, returning the deleted count. -/
def findAndDeleteItems (cfg : DBConfig) (scope : Scope) (klass : String)
    (options : FindOptions) : M Nat :=
  fun st =>
    match injectClassInQueryOption klass options with
    | .error e => (.error e, st)
    | .ok options2 => findAndDeleteItemsWithOptions cfg scope options2 st

theorem initializeObjectDatabase_noop (cfg : DBConfig) (scope : Scope)
    (st : State) (h : st.hasBeenInitialized = true) :
    initializeObjectDatabase cfg scope st = (.ok (), st) := by
  simp [initializeObjectDatabase, h]

theorem transaction_root_eq (cfg : DBConfig) {α : Type} (fn : Scope → M α)
    (st : State) (h : st.hasBeenInitialized = true) :
    transaction cfg fn Scope.root st = dbTransaction (fn Scope.nested) st := by
  simp [transaction, isInsideTransaction,
    initializeObjectDatabase_noop cfg Scope.root st h]

/-- C7: transaction() on a scope that is already Nested invokes the function
with that same scope and opens no second physical transaction; on the Root
scope it opens exactly one physical transaction and passes the function a
Nested scope bound to it; isInsideTransaction is a pure query, false on Root
and true on Nested. -/
theorem transaction_scope_management (cfg : DBConfig) {α : Type}
    (fn : Scope → M α) (st : State)
    (hinit : st.hasBeenInitialized = true)
    (hfn : ∀ s : State, ((fn Scope.nested s).2).txLog = s.txLog) :
    transaction cfg fn Scope.nested st = fn Scope.nested st ∧
    ((transaction cfg fn Scope.nested st).2).txLog = st.txLog ∧
    transaction cfg fn Scope.root st = dbTransaction (fn Scope.nested) st ∧
    ((transaction cfg fn Scope.root st).2).txLog = st.txLog + 1 ∧
    isInsideTransaction Scope.root = false ∧
    isInsideTransaction Scope.nested = true := by
  refine ⟨?_, ?_, transaction_root_eq cfg fn st hinit, ?_, rfl, rfl⟩
  · simp [transaction, isInsideTransaction]
  · simp [transaction, isInsideTransaction]
    exact hfn st
  · rw [transaction_root_eq cfg fn st hinit]
    unfold dbTransaction
    have hlog := hfn { st with txLog := st.txLog + 1 }
    cases hcase : fn Scope.nested { st with txLog := st.txLog + 1 } with
    | mk r st2 =>
      rw [hcase] at hlog
      cases r <;> simpa using hlog

/-- C2: a transaction body that returns normally is committed with all its
writes visible afterwards; a body that raises an error is rolled back, no
write of the body is observable afterwards, and the same error is re-raised
to the caller of transaction(). -/
theorem transaction_commit_abort (cfg : DBConfig) {α : Type}
    (fn : Scope → M α) (st : State)
    (hinit : st.hasBeenInitialized = true) :
    (∀ (a : α) (st2 : State),
        fn Scope.nested { st with txLog := st.txLog + 1 } = (.ok a, st2) →
        transaction cfg fn Scope.root st = (.ok a, st2)) ∧
    (∀ (e : Err) (st2 : State),
        fn Scope.nested { st with txLog := st.txLog + 1 } = (.error e, st2) →
        transaction cfg fn Scope.root st =
          (.error e, { st2 with objects := st.objects, lifecycle := st.lifecycle })) := by
  constructor <;> intro x st2 h <;>
    rw [transaction_root_eq cfg fn st hinit] <;> unfold dbTransaction <;> rw [h]

/-- Configuration used by the concrete witnesses. -/
def cfg0 : DBConfig := ⟨"Test", ["Person", "Account"]⟩

/-- Initialized state with an empty Objects table, used by the witnesses. -/
def st0 : State := ⟨[], some ⟨"Test", 1⟩, true, false, 0, []⟩

/-- Objects written by the witness transaction bodies. -/
def objW : List (String × Item) :=
  [("k", [("a", Value.num 1), ("_classes", Value.strList ["Person"])])]

/-- Witness body that writes and returns normally. -/
def fnOkW : Scope → M Nat :=
  fun _ s => (.ok 7, { s with objects := objW })

/-- Witness body that writes and then raises. -/
def fnErrW : Scope → M Nat :=
  fun _ s => (.error .classMismatch, { s with objects := objW })

theorem transaction_commit_abort_witness :
    transaction cfg0 fnOkW Scope.root st0 =
      (.ok 7, { st0 with txLog := 1, objects := objW }) ∧
    transaction cfg0 fnErrW Scope.root st0 =
      (.error .classMismatch, { st0 with txLog := 1 }) := by
  constructor
  · exact (transaction_commit_abort cfg0 fnOkW st0 rfl).1 7
      { st0 with txLog := 1, objects := objW } rfl
  · exact (transaction_commit_abort cfg0 fnErrW st0 rfl).2 .classMismatch
      { st0 with txLog := 1, objects := objW } rfl

/-- Witness body that neither writes nor opens a transaction. -/
def fnPureW : Scope → M Nat := fun _ s => (.ok 3, s)

theorem transaction_scope_management_witness :
    transaction cfg0 fnPureW Scope.nested st0 = fnPureW Scope.nested st0 ∧
    ((transaction cfg0 fnPureW Scope.nested st0).2).txLog = st0.txLog ∧
    transaction cfg0 fnPureW Scope.root st0 =
      dbTransaction (fnPureW Scope.nested) st0 ∧
    ((transaction cfg0 fnPureW Scope.root st0).2).txLog = st0.txLog + 1 ∧
    isInsideTransaction Scope.root = false ∧
    isInsideTransaction Scope.nested = true :=
  transaction_scope_management cfg0 fnPureW st0 rfl (fun _ => rfl)

theorem contains_true_of_mem {l : List String} {a : String} (h : a ∈ l) :
    l.contains a = true := by
  simpa using h

theorem contains_false_of_not_mem {l : List String} {a : String} (h : a ∉ l) :
    l.contains a = false := by
  simpa using h

theorem dbPutItem_upsert (key : String) (item : Item) (st : State) :
    dbPutItem key item true false st =
      (.ok (), { st with objects := setAssoc key item st.objects }) := by
  unfold dbPutItem
  cases h : lookupAssoc key st.objects <;> simp [h]

/-- C3: getItem on an absent key returns an empty result when errorIfMissing
is false and fails with NotFound when it is true; on a present key whose
class-list does not hold the requested class it fails with ClassMismatch for
either value of the flag. -/
theorem getItem_missing_and_mismatch (cfg : DBConfig) (klass key : String)
    (st : State) (hk : klass ≠ "") (hinit : st.hasBeenInitialized = true) :
    (lookupAssoc key st.objects = none →
        getItem cfg Scope.root klass key false st = (.ok none, st) ∧
        getItem cfg Scope.root klass key true st = (.error .notFound, st)) ∧
    (∀ (item : Item) (cs : List String) (eim : Bool),
        lookupAssoc key st.objects = some item →
        lookupAssoc "_classes" item = some (.strList cs) →
        klass ∉ cs →
        getItem cfg Scope.root klass key eim st = (.error .classMismatch, st)) := by
  have hcc : checkClass klass = .ok () := by simp [checkClass, hk]
  constructor
  · intro hnone
    constructor <;>
      simp [getItem, hcc, initializeObjectDatabase_noop, hinit, dbGetItem, hnone]
  · intro item cs eim hlook hcl hnm
    simp [getItem, hcc, initializeObjectDatabase_noop, hinit, dbGetItem, hlook,
      hcl, classesNotContain, hnm]

/-- State with one item tagged Account only, used by witnesses. -/
def stC3 : State :=
  ⟨[("k2", [("_classes", Value.strList ["Account"]), ("x", Value.num 2)])],
   some ⟨"Test", 1⟩, true, false, 0, []⟩

theorem getItem_missing_and_mismatch_witness :
    (getItem cfg0 Scope.root "Person" "k1" false stC3 = (.ok none, stC3) ∧
     getItem cfg0 Scope.root "Person" "k1" true stC3 =
       (.error .notFound, stC3)) ∧
    getItem cfg0 Scope.root "Person" "k2" true stC3 =
      (.error .classMismatch, stC3) := by
  refine ⟨(getItem_missing_and_mismatch cfg0 "Person" "k1" stC3
    (by decide) rfl).1 rfl, ?_⟩
  exact (getItem_missing_and_mismatch cfg0 "Person" "k2" stC3
    (by decide) rfl).2
    [("_classes", Value.strList ["Account"]), ("x", Value.num 2)]
    ["Account"] true rfl rfl (by decide)

/-- C1: after putItem with a non-empty class list, getItem under every class
of the list returns the list as classes and the value with the reserved
attribute stripped; getItem under any valid class name outside the list fails
with ClassMismatch. -/
theorem putItem_getItem_roundtrip (cfg : DBConfig) (C : List String)
    (key : String) (v : Item) (st : State)
    (hC : C ≠ []) (hmem : ∀ c ∈ C, c ≠ "")
    (hinit : st.hasBeenInitialized = true) :
    ∃ st2 : State,
      putItem cfg Scope.root C key v true false st = (.ok (), st2) ∧
      (∀ c ∈ C, getItem cfg Scope.root c key true st2 =
        (.ok (some ⟨.strList C, eraseAssoc "_classes" v⟩), st2)) ∧
      (∀ c : String, c ≠ "" → c ∉ C →
        getItem cfg Scope.root c key true st2 = (.error .classMismatch, st2)) := by
  have hcne : C.isEmpty = false := by
    cases C with
    | nil => exact absurd rfl hC
    | cons a t => rfl
  refine ⟨{ st with
      objects := setAssoc key (setAssoc "_classes" (.strList C) v) st.objects },
    ?_, ?_, ?_⟩
  · simp [putItem, hcne, initializeObjectDatabase_noop, hinit, dbPutItem_upsert]
  · intro c hc
    have hcc : checkClass c = .ok () := by simp [checkClass, hmem c hc]
    simp [getItem, hcc, initializeObjectDatabase_noop, hinit, dbGetItem,
      lookupAssoc_setAssoc_self, classesNotContain, hc, eraseAssoc_setAssoc]
  · intro c hcne2 hnm
    have hcc : checkClass c = .ok () := by simp [checkClass, hcne2]
    simp [getItem, hcc, initializeObjectDatabase_noop, hinit, dbGetItem,
      lookupAssoc_setAssoc_self, classesNotContain, hnm]

theorem putItem_getItem_roundtrip_witness :
    ∃ st2 : State,
      putItem cfg0 Scope.root ["Person", "Account"] "k"
        [("a", Value.num 1)] true false st0 = (.ok (), st2) ∧
      (∀ c ∈ ["Person", "Account"], getItem cfg0 Scope.root c "k" true st2 =
        (.ok (some ⟨.strList ["Person", "Account"],
          eraseAssoc "_classes" [("a", Value.num 1)]⟩), st2)) ∧
      (∀ c : String, c ≠ "" → c ∉ ["Person", "Account"] →
        getItem cfg0 Scope.root c "k" true st2 =
          (.error .classMismatch, st2)) :=
  putItem_getItem_roundtrip cfg0 ["Person", "Account"] "k"
    [("a", Value.num 1)] st0 (by decide) (by decide) rfl

/-- C4: deleteItem returns true exactly when a deletion occurred — true on an
existing item tagged with the class (removing it), false on a repeated delete
of the same key with errorIfMissing false, and false with the state's objects
untouched on any absent key with errorIfMissing false. -/
theorem deleteItem_returns_deletion (cfg : DBConfig) (klass key : String)
    (st : State) (item : Item) (cs : List String)
    (hk : klass ≠ "") (hinit : st.hasBeenInitialized = true)
    (hlook : lookupAssoc key st.objects = some item)
    (hcl : lookupAssoc "_classes" item = some (.strList cs))
    (hmem : klass ∈ cs) :
    deleteItem cfg Scope.root klass key true st =
      (.ok true,
        { st with txLog := st.txLog + 1, objects := eraseAssoc key st.objects }) ∧
    deleteItem cfg Scope.root klass key false
        { st with txLog := st.txLog + 1, objects := eraseAssoc key st.objects } =
      (.ok false,
        { st with txLog := st.txLog + 2, objects := eraseAssoc key st.objects }) ∧
    (∀ st3 : State, st3.hasBeenInitialized = true →
        lookupAssoc key st3.objects = none →
        deleteItem cfg Scope.root klass key false st3 =
          (.ok false, { st3 with txLog := st3.txLog + 1 })) := by
  have hcc : checkClass klass = .ok () := by simp [checkClass, hk]
  refine ⟨?_, ?_, ?_⟩
  · simp [deleteItem, hcc, transaction, isInsideTransaction,
      initializeObjectDatabase_noop, hinit, dbTransaction, deleteItemBody,
      dbGetItem, hlook, hcl, classesNotContain, hmem, dbDeleteItem]
  · simp [deleteItem, hcc, transaction, isInsideTransaction,
      initializeObjectDatabase_noop, hinit, dbTransaction, deleteItemBody,
      dbGetItem, lookupAssoc_eraseAssoc_self]
  · intro st3 hinit3 hlook3
    simp [deleteItem, hcc, transaction, isInsideTransaction,
      initializeObjectDatabase_noop, hinit3, dbTransaction, deleteItemBody,
      dbGetItem, hlook3]

theorem deleteItem_returns_deletion_witness :
    deleteItem cfg0 Scope.root "Account" "k2" true stC3 =
      (.ok true,
        { stC3 with txLog := 1, objects := eraseAssoc "k2" stC3.objects }) ∧
    deleteItem cfg0 Scope.root "Account" "k2" false
        { stC3 with txLog := 1, objects := eraseAssoc "k2" stC3.objects } =
      (.ok false,
        { stC3 with txLog := 2, objects := eraseAssoc "k2" stC3.objects }) ∧
    (∀ st3 : State, st3.hasBeenInitialized = true →
        lookupAssoc "k2" st3.objects = none →
        deleteItem cfg0 Scope.root "Account" "k2" false st3 =
          (.ok false, { st3 with txLog := st3.txLog + 1 })) :=
  deleteItem_returns_deletion cfg0 "Account" "k2" stC3
    [("_classes", Value.strList ["Account"]), ("x", Value.num 2)]
    ["Account"] (by decide) rfl rfl rfl (by decide)

/-- C8: the upgrade routine compares the stored version with the code's
constant — equal is a no-op; a stored version greater fails with the
downgrade error and changes nothing; a stored version lesser persists the
record with the updated version while emitting the upgrade-start and
upgrade-stop notifications around the work. -/
theorem upgradeObjectDatabase_behavior (st : State) (r : LifecycleRecord)
    (h : st.lifecycle = some r) :
    (r.version = VERSION → upgradeObjectDatabase st = (.ok (), st)) ∧
    (r.version > VERSION →
        upgradeObjectDatabase st = (.error .versionDowngrade, st)) ∧
    (r.version < VERSION →
        upgradeObjectDatabase st =
          (.ok (), { st with
              lifecycle := some { r with version := VERSION },
              events := st.events ++ ["upgradeDidStart", "upgradeDidStop"] })) := by
  refine ⟨?_, ?_, ?_⟩
  · intro hv
    simp [upgradeObjectDatabase, loadObjectDatabaseRecord, h, hv]
  · intro hv
    have hne : ¬ (r.version = VERSION) := by omega
    simp [upgradeObjectDatabase, loadObjectDatabaseRecord, h, hne, hv]
  · intro hv
    have hne : ¬ (r.version = VERSION) := by omega
    have hng : ¬ (r.version > VERSION) := by omega
    simp [upgradeObjectDatabase, loadObjectDatabaseRecord, h, hne, hng,
      emitEvent, saveObjectDatabaseRecord]

/-- State holding a version-0 lifecycle record, used by the C8 witness. -/
def stUpgrade : State := ⟨[], some ⟨"Test", 0⟩, false, false, 0, []⟩

theorem upgradeObjectDatabase_behavior_witness :
    ((0 : Int) = VERSION → upgradeObjectDatabase stUpgrade = (.ok (), stUpgrade)) ∧
    ((0 : Int) > VERSION →
        upgradeObjectDatabase stUpgrade = (.error .versionDowngrade, stUpgrade)) ∧
    ((0 : Int) < VERSION →
        upgradeObjectDatabase stUpgrade =
          (.ok (), { stUpgrade with
              lifecycle := some ⟨"Test", VERSION⟩,
              events := stUpgrade.events ++
                ["upgradeDidStart", "upgradeDidStop"] })) :=
  upgradeObjectDatabase_behavior stUpgrade ⟨"Test", 0⟩ rfl

/-- Classification of a result as an InvalidArgument failure. -/
def isInvalidArgumentResult : Except Err (Option StoredItem) → Bool
  | .error (.invalidArgument _) => true
  | _ => false

/-- State holding a record whose reserved class-list attribute is empty, used
by the C9 counterexample. -/
def st9 : State :=
  ⟨[("k1", [("_classes", Value.strList []), ("a", Value.num 1)])],
   some ⟨"Test", 1⟩, true, false, 0, []⟩

/-- C9 counterexample: decoding a stored record whose reserved class-list
attribute is the empty list does not fail with InvalidArgument as claimed —
getItem raises ClassMismatch instead. -/
theorem getItem_empty_classlist_not_invalidArgument :
    (getItem cfg0 Scope.root "Person" "k1" true st9).1 =
      .error .classMismatch ∧
    isInvalidArgumentResult (getItem cfg0 Scope.root "Person" "k1" true st9).1 =
      false := by
  constructor <;> rfl

/-- C9 as amended: the decode performed by getItem validates nothing — a
string-list reserved attribute containing the requested class yields it as
classes with every other attribute as value, a string-list not containing the
requested class (the empty list included) raises ClassMismatch, and a missing
reserved attribute raises a TypeError; no InvalidArgument is ever produced by
the decode. -/
theorem getItem_decode_amended (cfg : DBConfig) (klass key : String)
    (st : State) (item : Item)
    (hk : klass ≠ "") (hinit : st.hasBeenInitialized = true)
    (hlook : lookupAssoc key st.objects = some item) :
    (∀ cs : List String, lookupAssoc "_classes" item = some (.strList cs) →
        klass ∈ cs →
        getItem cfg Scope.root klass key true st =
          (.ok (some ⟨.strList cs, eraseAssoc "_classes" item⟩), st)) ∧
    (∀ cs : List String, lookupAssoc "_classes" item = some (.strList cs) →
        klass ∉ cs →
        getItem cfg Scope.root klass key true st =
          (.error .classMismatch, st)) ∧
    (lookupAssoc "_classes" item = none →
        getItem cfg Scope.root klass key true st = (.error .typeError, st)) := by
  have hcc : checkClass klass = .ok () := by simp [checkClass, hk]
  refine ⟨?_, ?_, ?_⟩
  · intro cs hcl hmem
    simp [getItem, hcc, initializeObjectDatabase_noop, hinit, dbGetItem,
      hlook, hcl, classesNotContain, hmem]
  · intro cs hcl hnm
    simp [getItem, hcc, initializeObjectDatabase_noop, hinit, dbGetItem,
      hlook, hcl, classesNotContain, hnm]
  · intro hcl
    simp [getItem, hcc, initializeObjectDatabase_noop, hinit, dbGetItem,
      hlook, hcl]

theorem getItem_decode_amended_witness :
    (∀ cs : List String,
        lookupAssoc "_classes" [("_classes", Value.strList []), ("a", Value.num 1)] =
          some (.strList cs) →
        "Person" ∈ cs →
        getItem cfg0 Scope.root "Person" "k1" true st9 =
          (.ok (some ⟨.strList cs,
            eraseAssoc "_classes"
              [("_classes", Value.strList []), ("a", Value.num 1)]⟩), st9)) ∧
    (∀ cs : List String,
        lookupAssoc "_classes" [("_classes", Value.strList []), ("a", Value.num 1)] =
          some (.strList cs) →
        "Person" ∉ cs →
        getItem cfg0 Scope.root "Person" "k1" true st9 =
          (.error .classMismatch, st9)) ∧
    (lookupAssoc "_classes" [("_classes", Value.strList []), ("a", Value.num 1)] =
          none →
        getItem cfg0 Scope.root "Person" "k1" true st9 =
          (.error .typeError, st9)) :=
  getItem_decode_amended cfg0 "Person" "k1" st9
    [("_classes", Value.strList []), ("a", Value.num 1)] (by decide) rfl rfl

/-- Declared properties of an index spec, after the wrapping normalizations. -/
def RawIndex.rawProperties : RawIndex → List PropSpec
  | .bare ps => ps.toList
  | .plain ps _ => ps.toList

/-- Declared projection of an index spec. -/
def RawIndex.rawProjection : RawIndex → Option (List String)
  | .bare _ => none
  | .plain _ proj => proj

theorem foldl_append_join {α β : Type} (f : α → List β) (l : List α)
    (acc : List β) :
    l.foldl (fun a x => a ++ f x) acc = acc ++ (l.map f).flatten := by
  induction l generalizing acc with
  | nil => simp
  | cons x t ih => simp [List.foldl_cons, ih, List.append_assoc]

/-- C6: the schema builder contributes, per class, one membership-only index
whose sole key component is the class's membership predicate, then one index
per declared index whose key components are the membership predicate followed
by the declared properties in order; a declared projection gets the reserved
class-list attribute appended. -/
theorem schema_builder_synthesis (classes : List ClassInput) :
    buildTableIndexes classes =
      (classes.map (fun ci => buildClassIndexes (normalizeClassInput ci))).flatten ∧
    (∀ c : ClassDecl, buildClassIndexes c =
        { properties := [KeyComp.membership c.name], projection := none } ::
          c.indexes.map (buildIndex c.name)) ∧
    (∀ (n : String) (ri : RawIndex),
        (buildIndex n ri).properties =
          KeyComp.membership n :: ri.rawProperties.map KeyComp.declared) ∧
    (∀ (n : String) (ri : RawIndex),
        (buildIndex n ri).projection =
          ri.rawProjection.map (fun pr => pr ++ ["_classes"])) := by
  refine ⟨?_, ?_, ?_, ?_⟩
  · simpa [buildTableIndexes] using
      foldl_append_join (fun ci => buildClassIndexes (normalizeClassInput ci))
        classes []
  · intro c
    simp [buildClassIndexes, buildIndex, RawProps.toList]
  · intro n ri
    cases ri <;> rfl
  · intro n ri
    cases ri <;> rfl

/-- C10: each of the query operations first rewrites its caller-supplied
options through injectClassInQueryOption — afterwards the query field exists
and maps the class name with a question mark appended to true, overwriting
any caller entry stored under that exact key; every other query entry and
every other option field is unchanged, and each operation proceeds with
exactly that rewritten options object. -/
theorem inject_options_mutation (klass : String) (options : FindOptions)
    (hk : klass ≠ "") :
    ∃ q2 : List (String × Value),
      injectClassInQueryOption klass options =
        .ok { options with query := some q2 } ∧
      lookupAssoc (makeIndexName klass) q2 = some (.bool true) ∧
      (∀ k2 : String, k2 ≠ makeIndexName klass →
          lookupAssoc k2 q2 = lookupAssoc k2 (options.query.getD [])) ∧
      (∀ (cfg : DBConfig) (scope : Scope) (st : State),
          findItems cfg scope klass options st =
            findItemsWithOptions cfg scope { options with query := some q2 } st) ∧
      (∀ (cfg : DBConfig) (scope : Scope) (st : State),
          countItems cfg scope klass options st =
            countItemsWithOptions cfg scope { options with query := some q2 } st) ∧
      (∀ (cfg : DBConfig) (scope : Scope) (st : State)
          (visit : FoundItem → M Unit),
          forEachItems cfg scope klass options visit st =
            forEachItemsWithOptions cfg scope { options with query := some q2 }
              visit st) ∧
      (∀ (cfg : DBConfig) (scope : Scope) (st : State),
          findAndDeleteItems cfg scope klass options st =
            findAndDeleteItemsWithOptions cfg scope
              { options with query := some q2 } st) := by
  have hcc : checkClass klass = .ok () := by simp [checkClass, hk]
  have hinj : injectClassInQueryOption klass options =
      .ok { options with query := some (setAssoc (makeIndexName klass)
        (.bool true) (options.query.getD [])) } := by
    simp [injectClassInQueryOption, hcc]
  refine ⟨setAssoc (makeIndexName klass) (.bool true) (options.query.getD []),
    hinj, lookupAssoc_setAssoc_self _ _ _, ?_, ?_, ?_, ?_, ?_⟩
  · intro k2 hne
    exact lookupAssoc_setAssoc_ne (makeIndexName klass) k2 (.bool true)
      (options.query.getD []) hne
  · intro cfg scope st
    simp [findItems, hinj]
  · intro cfg scope st
    simp [countItems, hinj]
  · intro cfg scope st visit
    simp [forEachItems, hinj]
  · intro cfg scope st
    simp [findAndDeleteItems, hinj]

/-- Options with a caller entry stored under the injected key, used by the
C10 witness. -/
def optsW : FindOptions :=
  ⟨some [("country", Value.str "France"), ("Person?", Value.num 0)],
   some ["lastName"], some 10, some false, some 250, none⟩

theorem inject_options_mutation_witness :
    ∃ q2 : List (String × Value),
      injectClassInQueryOption "Person" optsW =
        .ok { optsW with query := some q2 } ∧
      lookupAssoc (makeIndexName "Person") q2 = some (.bool true) ∧
      (∀ k2 : String, k2 ≠ makeIndexName "Person" →
          lookupAssoc k2 q2 = lookupAssoc k2 (optsW.query.getD [])) ∧
      (∀ (cfg : DBConfig) (scope : Scope) (st : State),
          findItems cfg scope "Person" optsW st =
            findItemsWithOptions cfg scope { optsW with query := some q2 } st) ∧
      (∀ (cfg : DBConfig) (scope : Scope) (st : State),
          countItems cfg scope "Person" optsW st =
            countItemsWithOptions cfg scope { optsW with query := some q2 } st) ∧
      (∀ (cfg : DBConfig) (scope : Scope) (st : State)
          (visit : FoundItem → M Unit),
          forEachItems cfg scope "Person" optsW visit st =
            forEachItemsWithOptions cfg scope { optsW with query := some q2 }
              visit st) ∧
      (∀ (cfg : DBConfig) (scope : Scope) (st : State),
          findAndDeleteItems cfg scope "Person" optsW st =
            findAndDeleteItemsWithOptions cfg scope
              { optsW with query := some q2 } st) :=
  inject_options_mutation "Person" optsW (by decide)

theorem makeIndexName_inj {a b : String} (h : makeIndexName a = makeIndexName b) :
    a = b := by
  unfold makeIndexName at h
  have h2 : a.data ++ "?".data = b.data ++ "?".data := by
    simpa [String.data_append] using congrArg String.data h
  have h3 : a.data = b.data := List.append_cancel_right h2
  exact String.ext h3

theorem find?_makeIndexName (schema : List String) (klass : String)
    (h : klass ∈ schema) :
    schema.find? (fun c => makeIndexName c = makeIndexName klass) = some klass := by
  induction schema with
  | nil => cases h
  | cons c t ih =>
    by_cases hc : makeIndexName c = makeIndexName klass
    · have hck : c = klass := makeIndexName_inj hc
      subst hck
      simp [List.find?]
    · have hmem : klass ∈ t := by
        cases h with
        | head => exact absurd rfl hc
        | tail _ h2 => exact h2
      simp [List.find?, hc, ih hmem]

theorem evalQueryEntry_membership (schema : List String) (klass : String)
    (item : Item) (v : Value) (h : klass ∈ schema) :
    evalQueryEntry schema item (makeIndexName klass) v =
      decide (classPredicateEval item klass = some v) := by
  unfold evalQueryEntry
  rw [find?_makeIndexName schema klass h]

theorem map_set_of_lookup_none {β : Type} (k : String) (v : β)
    (l : List (String × β)) (h : lookupAssoc k l = none) :
    l.map (fun p => if p.1 = k then (k, v) else p) = l := by
  induction l with
  | nil => rfl
  | cons p t ih =>
    by_cases hp : p.1 = k
    · simp [lookupAssoc, hp] at h
    · simp [lookupAssoc, hp] at h
      simp [hp, ih h]

theorem eraseAssoc_cons_pos {β : Type} (k : String) (p : String × β)
    (t : List (String × β)) (hp : p.1 = k) :
    eraseAssoc k (p :: t) = eraseAssoc k t := by
  simp [eraseAssoc, List.filter_cons, hp]

theorem eraseAssoc_cons_neg {β : Type} (k : String) (p : String × β)
    (t : List (String × β)) (hp : ¬ p.1 = k) :
    eraseAssoc k (p :: t) = p :: eraseAssoc k t := by
  simp [eraseAssoc, List.filter_cons, hp]

theorem all_map_set_of_lookup_some {β : Type} (f : String × β → Bool)
    (k : String) (v : β) (l : List (String × β))
    (h : (lookupAssoc k l).isSome) :
    (l.map (fun p => if p.1 = k then (k, v) else p)).all f =
      (f (k, v) && (eraseAssoc k l).all f) := by
  induction l with
  | nil => simp [lookupAssoc] at h
  | cons p t ih =>
    by_cases hp : p.1 = k
    · rw [eraseAssoc_cons_pos k p t hp]
      by_cases ht : (lookupAssoc k t).isSome
      · rw [List.map_cons, if_pos hp, List.all_cons, ih ht,
          ← Bool.and_assoc, Bool.and_self]
      · have hn : lookupAssoc k t = none := by
          cases hx : lookupAssoc k t
          · rfl
          · rw [hx] at ht; simp at ht
        rw [List.map_cons, if_pos hp, List.all_cons,
          map_set_of_lookup_none k v t hn, eraseAssoc_of_lookup_none k t hn]
    · have ht : (lookupAssoc k t).isSome := by
        simpa [lookupAssoc, hp] using h
      rw [eraseAssoc_cons_neg k p t hp]
      rw [List.map_cons, if_neg hp, List.all_cons, ih ht, Bool.and_left_comm,
        List.all_cons]

theorem all_setAssoc {β : Type} (f : String × β → Bool) (k : String) (v : β)
    (l : List (String × β)) :
    (setAssoc k v l).all f = (f (k, v) && (eraseAssoc k l).all f) := by
  unfold setAssoc
  by_cases hs : (lookupAssoc k l).isSome
  · rw [if_pos hs]
    exact all_map_set_of_lookup_some f k v l hs
  · rw [if_neg hs]
    have hn : lookupAssoc k l = none := by
      cases hx : lookupAssoc k l
      · rfl
      · rw [hx] at hs; simp at hs
    rw [eraseAssoc_of_lookup_none k l hn]
    simp [List.all_append, Bool.and_comm]

theorem dbMatches_inject (schema : List String) (klass : String) (item : Item)
    (q : List (String × Value)) (h : klass ∈ schema) :
    dbMatches schema item (setAssoc (makeIndexName klass) (.bool true) q) =
      (decide (classPredicateEval item klass = some (.bool true)) &&
        dbMatches schema item (eraseAssoc (makeIndexName klass) q)) := by
  unfold dbMatches
  rw [all_setAssoc]
  simp only [evalQueryEntry_membership schema klass item (.bool true) h]

theorem filter_pos_of_filter_neg {α : Type} (P : α → Bool) (l : List α) :
    (l.filter (fun a => ! P a)).filter P = [] := by
  induction l with
  | nil => rfl
  | cons a t ih =>
    by_cases h : P a <;> simp [List.filter_cons, h, ih]

theorem filter_neg_idem {α : Type} (P : α → Bool) (l : List α) :
    (l.filter (fun a => ! P a)).filter (fun a => ! P a) =
      l.filter (fun a => ! P a) := by
  induction l with
  | nil => rfl
  | cons a t ih =>
    by_cases h : P a <;> simp [List.filter_cons, h, ih]

/-- C5: findAndDeleteItems deletes exactly the items matching the
class-scoped query (the injected query decomposes, for a declared class, into
the class-membership predicate conjoined with the caller's remaining query)
and returns the number deleted; an immediate second call with the same query
returns 0 and changes nothing. -/
theorem findAndDeleteItems_deletes_matching (cfg : DBConfig) (klass : String)
    (options : FindOptions) (st : State)
    (hk : klass ≠ "") (hinit : st.hasBeenInitialized = true) :
    ∃ (n : Nat) (st2 : State),
      findAndDeleteItems cfg Scope.root klass options st = (.ok n, st2) ∧
      n = (st.objects.filter (fun kv =>
            dbMatches cfg.declaredClasses kv.2
              (setAssoc (makeIndexName klass) (.bool true)
                (options.query.getD [])))).length ∧
      st2.objects = st.objects.filter (fun kv =>
            ! dbMatches cfg.declaredClasses kv.2
              (setAssoc (makeIndexName klass) (.bool true)
                (options.query.getD []))) ∧
      (klass ∈ cfg.declaredClasses →
        ∀ item : Item,
          dbMatches cfg.declaredClasses item
              (setAssoc (makeIndexName klass) (.bool true)
                (options.query.getD [])) =
            (decide (classPredicateEval item klass = some (.bool true)) &&
              dbMatches cfg.declaredClasses item
                (eraseAssoc (makeIndexName klass) (options.query.getD [])))) ∧
      findAndDeleteItems cfg Scope.root klass options st2 = (.ok 0, st2) := by
  have hcc : checkClass klass = .ok () := by simp [checkClass, hk]
  have hinj : injectClassInQueryOption klass options =
      .ok { options with query := some (setAssoc (makeIndexName klass)
        (.bool true) (options.query.getD [])) } := by
    simp [injectClassInQueryOption, hcc]
  refine ⟨(st.objects.filter (fun kv =>
      dbMatches cfg.declaredClasses kv.2
        (setAssoc (makeIndexName klass) (.bool true)
          (options.query.getD [])))).length,
    { st with objects := st.objects.filter (fun kv =>
        ! dbMatches cfg.declaredClasses kv.2
          (setAssoc (makeIndexName klass) (.bool true)
            (options.query.getD []))) },
    ?_, rfl, rfl, ?_, ?_⟩
  · simp [findAndDeleteItems, hinj, findAndDeleteItemsWithOptions,
      initializeObjectDatabase_noop, hinit, dbFindAndDeleteItems, dbFindItemsRaw]
  · intro hdecl item
    exact dbMatches_inject cfg.declaredClasses klass item
      (options.query.getD []) hdecl
  · simp [findAndDeleteItems, hinj, findAndDeleteItemsWithOptions,
      initializeObjectDatabase_noop, hinit, dbFindAndDeleteItems,
      dbFindItemsRaw, filter_pos_of_filter_neg, filter_neg_idem]

/-- Empty options record used by the C5 witness. -/
def optsNoneW : FindOptions := ⟨none, none, none, none, none, none⟩

theorem findAndDeleteItems_deletes_matching_witness :
    ∃ (n : Nat) (st2 : State),
      findAndDeleteItems cfg0 Scope.root "Account" optsNoneW stC3 =
        (.ok n, st2) ∧
      n = (stC3.objects.filter (fun kv =>
            dbMatches cfg0.declaredClasses kv.2
              (setAssoc (makeIndexName "Account") (.bool true)
                (optsNoneW.query.getD [])))).length ∧
      st2.objects = stC3.objects.filter (fun kv =>
            ! dbMatches cfg0.declaredClasses kv.2
              (setAssoc (makeIndexName "Account") (.bool true)
                (optsNoneW.query.getD []))) ∧
      ("Account" ∈ cfg0.declaredClasses →
        ∀ item : Item,
          dbMatches cfg0.declaredClasses item
              (setAssoc (makeIndexName "Account") (.bool true)
                (optsNoneW.query.getD [])) =
            (decide (classPredicateEval item "Account" = some (.bool true)) &&
              dbMatches cfg0.declaredClasses item
                (eraseAssoc (makeIndexName "Account") (optsNoneW.query.getD [])))) ∧
      findAndDeleteItems cfg0 Scope.root "Account" optsNoneW st2 =
        (.ok 0, st2) :=
  findAndDeleteItems_deletes_matching cfg0 "Account" optsNoneW stC3
    (by decide) rfl

end KindaObjectDB
